import Mathlib

/-!
Verification development for the emotional-sharing web application.

The definitions below are shallow embeddings of the repository's source:
* `services/geminiService.ts` (the empathy service adapter),
* `components/VisualGarden.tsx` (selection state, layout radii, breathing),
* `App.tsx` (mood registry operations and the caption sanitizer),
* `components/EmpathyGuide.tsx` (local-history loading).

The external text-completion service and `JSON.parse` are opaque
collaborators; their per-call outcome is passed in explicitly
(`Except`-valued), exactly mirroring the control flow of the TypeScript.
-/

/-! ## Empathy service adapter (services/geminiService.ts) -/

/-- An underlying failure of the external text-completion service:
the awaited call threw / the promise rejected. The adapter never inspects
the error, so a single opaque constructor per failure kind suffices. -/
inductive ServiceError where
  | networkError
  | malformedResponse
deriving DecidableEq, Repr

/-- One resolved call of the external service: either it throws
(`Except.error`) or it resolves with a `text` field that may be absent
(`none`) or any string (JS `response.text`). -/
abbrev ServiceOutcome := Except ServiceError (Option String)

/-- JS `x || fallback` on an optional string field: `undefined` and the
empty string are falsy. -/
def jsOrElse (t : Option String) (fallback : String) : String :=
  match t with
  | none => fallback
  | some s => if s = "" then fallback else s

/-- `getAi` from geminiService.ts:
`const apiKey = process.env.API_KEY; if (!apiKey) return null; return new GoogleGenAI({apiKey});`
The credential is `none` when unset; the empty string is also falsy in JS. -/
def getAi (apiKey : Option String) : Option Unit :=
  match apiKey with
  | none => none
  | some k => if k = "" then none else some ()

/-- `getEmpathyResponse(userMood, userMessage)` from geminiService.ts.
The second component records whether `ai.models.generateContent` was
invoked. The prompt built from `userMood`/`userMessage` only feeds the
opaque service, whose outcome is the explicit `svc` argument. -/
def getEmpathyResponse (apiKey : Option String) (svc : ServiceOutcome)
    (userMood userMessage : String) : String × Bool :=
  match getAi apiKey with
  | none => ("我在这里倾听。", false)
  | some _ =>
    match svc with
    | Except.ok t => (jsOrElse t "在这片静谧中，你的心声已被接收。", true)
    | Except.error _ => ("繁星在倾听，你内心的回响已被宇宙温柔地环抱。", true)

/-- A chat turn as sent to the service: role tag plus the single text part. -/
structure ChatTurn where
  role : Bool  -- true = user, false = model
  text : String
deriving DecidableEq, Repr

/-- `getDeepChatResponse(history)` from geminiService.ts. -/
def getDeepChatResponse (apiKey : Option String) (svc : ServiceOutcome)
    (history : List ChatTurn) : String × Bool :=
  match getAi apiKey with
  | none => ("在这场心灵的漫步中，我一直都在。", false)
  | some _ =>
    match svc with
    | Except.ok t => (jsOrElse t "在这场心灵的漫步中，我一直都在。", true)
    | Except.error _ => ("由于宇宙尘埃的干扰，我暂时无法回应，但我始终与你同在。", true)

/-- `analyzeEmotionalLandscape(moods)` from geminiService.ts:
`if (!ai || moods.length === 0) return "一片浩瀚的星空，每一盏灯火都各有归处。";`
then on success `response.text?.trim() || fallback`. The external trim is
modelled by `jsTrimOpt` below only through the falsy check; its exact
whitespace set is irrelevant to the claims, so the trimmed text is taken
as the service text itself when nonempty. -/
def analyzeEmotionalLandscape (apiKey : Option String) (svc : ServiceOutcome)
    (moods : List String) : String × Bool :=
  if getAi apiKey = none ∨ moods.length = 0 then
    ("一片浩瀚的星空，每一盏灯火都各有归处。", false)
  else
    match svc with
    | Except.ok t => (jsOrElse t "如同细雨后的初晴，万物在静默中生长。", true)
    | Except.error _ => ("一片浩瀚的星空，每一盏灯火都各有归处。", true)

/-- The pre-written fallback strings `getEmpathyResponse` can return. -/
def empathyFallbacks : List String :=
  ["我在这里倾听。",
   "在这片静谧中，你的心声已被接收。",
   "繁星在倾听，你内心的回响已被宇宙温柔地环抱。"]

/-- The pre-written fallback strings `getDeepChatResponse` can return. -/
def chatFallbacks : List String :=
  ["在这场心灵的漫步中，我一直都在。",
   "由于宇宙尘埃的干扰，我暂时无法回应，但我始终与你同在。"]

/-! ## Garden selection state machine (components/VisualGarden.tsx) -/

/-- The pointer events that change `selectedMoodId`: a click on a node's
group (line 123: `setSelectedMoodId(d.id)`), or the detail panel's close
button (line 377: `setSelectedMoodId(null)`). The SVG background has no
click handler in the source. -/
inductive GardenEvent where
  | clickNode (id : String)
  | closePanel
deriving DecidableEq, Repr

/-- The `selectedMoodId` transition function of VisualGarden.
A node click always stores that node's id (there is no toggle branch);
the close button clears the selection. -/
def selectionStep (s : Option String) (e : GardenEvent) : Option String :=
  match e with
  | GardenEvent.clickNode i => some i
  | GardenEvent.closePanel => none

/-! ## Layout radii and breathing parameters (components/VisualGarden.tsx) -/

/-- `const basePadding = 8 + (32 / (1 + count * 0.08));` -/
def basePadding (count : ℚ) : ℚ := 8 + 32 / (1 + count * (8 / 100))

/-- `const intensityScale = 2.8 + (6.2 / (1 + count * 0.05));` -/
def intensityScale (count : ℚ) : ℚ := 28 / 10 + (62 / 10) / (1 + count * (5 / 100))

/-- `const getCollisionRadius = (d) => d.intensity * intensityScale + basePadding;` -/
def getCollisionRadius (count intensity : ℚ) : ℚ :=
  intensity * intensityScale count + basePadding count

/-- `const getVisualRadius = (d) => (d.intensity * intensityScale * 0.65) + (basePadding * 0.4);` -/
def getVisualRadius (count intensity : ℚ) : ℚ :=
  intensity * intensityScale count * (65 / 100) + basePadding count * (4 / 10)

/-- The collide-force radius handed to the simulation:
`d3.forceCollide().radius((d) => getCollisionRadius(d) * 1.05)`.
`selectedMoodId` is in scope in the effect that builds the simulation but
is not read by this computation; it is kept as an argument to record that. -/
def effectCollideRadius (selectedMoodId : Option String) (count intensity : ℚ) : ℚ :=
  getCollisionRadius count intensity * (105 / 100)

/-- `const baseDuration = 4000 - (d.intensity * 250);` — one half-cycle of
the breathing transition, in milliseconds. -/
def baseDuration (intensity : ℚ) : ℚ := 4000 - intensity * 250

/-- The per-node oscillation parameters of `triggerBreathe`. -/
structure BreathParams where
  baseDuration : ℚ
  pulseRange : ℚ
  auraBaseRadius : ℚ
  coreBaseRadius : ℚ
  auraOpacityHigh : ℚ
  auraOpacityLow : ℚ
  strokeWidthHigh : ℚ
  strokeWidthLow : ℚ
deriving DecidableEq, Repr

/-- The values `triggerBreathe` computes for a node from its intensity,
the node count (through `getVisualRadius`) and whether it is the selected
node (`const isSelected = d.id === selectedMoodId`). -/
def breathParams (count intensity : ℚ) (isSelected : Bool) : BreathParams :=
  { baseDuration := 4000 - intensity * 250
    pulseRange := intensity * (4 / 10) + (if isSelected then 12 else 5)
    auraBaseRadius := getVisualRadius count intensity * (12 / 10)
    coreBaseRadius := getVisualRadius count intensity * (6 / 10)
    auraOpacityHigh := if isSelected then 65 / 100 else 3 / 10
    auraOpacityLow := if isSelected then 35 / 100 else 15 / 100
    strokeWidthHigh := if isSelected then 5 else 3
    strokeWidthLow := if isSelected then 5 / 2 else 3 / 2 }

/-- The tick-handler position update (VisualGarden lines 94–113): clamp to
the viewport by the node's visual radius, then push nodes out of the
reserved top-left rectangle (`avoidWidth × avoidHeight`). Applied
identically to every node; selection is not consulted. -/
def tickTransform (width height avoidW avoidH r x y : ℚ) : ℚ × ℚ :=
  let tx := max r (min (width - r) x)
  let ty := max r (min (height - r) y)
  if tx < avoidW ∧ ty < avoidH then
    let distToRight := avoidW - tx
    let distToBottom := avoidH - ty
    if distToRight < distToBottom then (avoidW + r, ty) else (tx, avoidH + r)
  else (tx, ty)

/-! ### Theorems: adapter (C1, C6) -/

/-- C1: `getEmpathyResponse` and `getDeepChatResponse` never throw: for
every credential state and every service outcome each returns either the
service's own nonempty text or one of its pre-written fallback strings;
and a missing (or empty, hence falsy) credential is detected before the
service is called — the call flag is `false` and the result is the
dedicated per-call-site credential fallback. -/
theorem adapter_never_throws (apiKey : Option String) (svc : ServiceOutcome)
    (mood msg : String) (hist : List ChatTurn) :
    ((getEmpathyResponse apiKey svc mood msg).1 ∈ empathyFallbacks ∨
      svc = Except.ok (some (getEmpathyResponse apiKey svc mood msg).1)) ∧
    ((getDeepChatResponse apiKey svc hist).1 ∈ chatFallbacks ∨
      svc = Except.ok (some (getDeepChatResponse apiKey svc hist).1)) ∧
    (getAi apiKey = none →
      getEmpathyResponse apiKey svc mood msg = ("我在这里倾听。", false) ∧
      getDeepChatResponse apiKey svc hist = ("在这场心灵的漫步中，我一直都在。", false)) ∧
    (∀ e, svc = Except.error e → getAi apiKey ≠ none →
      getEmpathyResponse apiKey svc mood msg =
        ("繁星在倾听，你内心的回响已被宇宙温柔地环抱。", true) ∧
      getDeepChatResponse apiKey svc hist =
        ("由于宇宙尘埃的干扰，我暂时无法回应，但我始终与你同在。", true)) := by
  refine ⟨?_, ?_, ?_, ?_⟩
  · cases hai : getAi apiKey with
    | none => simp [getEmpathyResponse, hai, empathyFallbacks]
    | some u =>
      cases svc with
      | error e => simp [getEmpathyResponse, hai, empathyFallbacks]
      | ok t =>
        cases t with
        | none => simp [getEmpathyResponse, hai, empathyFallbacks, jsOrElse]
        | some s =>
          by_cases hs : s = "" <;>
            simp [getEmpathyResponse, hai, empathyFallbacks, jsOrElse, hs]
  · cases hai : getAi apiKey with
    | none => simp [getDeepChatResponse, hai, chatFallbacks]
    | some u =>
      cases svc with
      | error e => simp [getDeepChatResponse, hai, chatFallbacks]
      | ok t =>
        cases t with
        | none => simp [getDeepChatResponse, hai, chatFallbacks, jsOrElse]
        | some s =>
          by_cases hs : s = "" <;>
            simp [getDeepChatResponse, hai, chatFallbacks, jsOrElse, hs]
  · intro hai
    constructor <;> simp [getEmpathyResponse, getDeepChatResponse, hai]
  · intro e hsvc hai
    cases hA : getAi apiKey with
    | none => exact absurd hA hai
    | some u =>
      subst hsvc
      constructor <;> simp [getEmpathyResponse, getDeepChatResponse, hA]

/-- C1 witness: the theorem evaluated at concrete inputs — a missing
credential yields the credential fallbacks without a service call, and a
rejected service call with a present credential yields the error fallbacks. -/
theorem adapter_never_throws_witness :
    (getEmpathyResponse none (Except.error ServiceError.networkError) "喜悦" "今天很好"
        = ("我在这里倾听。", false) ∧
      getDeepChatResponse none (Except.error ServiceError.networkError) []
        = ("在这场心灵的漫步中，我一直都在。", false)) ∧
    (getEmpathyResponse (some "k") (Except.error ServiceError.networkError) "喜悦" "今天很好"
        = ("繁星在倾听，你内心的回响已被宇宙温柔地环抱。", true) ∧
      getDeepChatResponse (some "k") (Except.error ServiceError.networkError) []
        = ("由于宇宙尘埃的干扰，我暂时无法回应，但我始终与你同在。", true)) :=
  ⟨(adapter_never_throws none (Except.error ServiceError.networkError)
      "喜悦" "今天很好" []).2.2.1 rfl,
   (adapter_never_throws (some "k") (Except.error ServiceError.networkError)
      "喜悦" "今天很好" []).2.2.2 ServiceError.networkError rfl (by decide)⟩

/-- C6: called on the empty list of emotion labels,
`analyzeEmotionalLandscape` returns the fixed placeholder and does not
invoke the service, for every credential state and every (unconsumed)
service outcome. -/
theorem summarize_empty_placeholder (apiKey : Option String) (svc : ServiceOutcome) :
    analyzeEmotionalLandscape apiKey svc [] =
      ("一片浩瀚的星空，每一盏灯火都各有归处。", false) := by
  simp [analyzeEmotionalLandscape]

/-! ### Theorems: selection state machine (C3) -/

/-- C3 counterexample: pointer activation on the already-selected node
does not deselect it — the click handler unconditionally stores the
clicked id, so the node stays selected, contradicting the claimed
unselected ⇄ selected toggle. -/
theorem selection_toggle_counterexample :
    selectionStep (some "1") (GardenEvent.clickNode "1") = some "1" ∧
    selectionStep (some "1") (GardenEvent.clickNode "1") ≠ none := by
  constructor
  · rfl
  · simp [selectionStep]

/-- C3 amended: clicking a node always selects exactly that node (also
when it is already selected — there is no toggle), the detail panel's
close button deselects, and since the state is a single optional id, at
most one node is selected and selecting a second node deselects the
first. -/
theorem selection_step_spec (s : Option String) (i : String) :
    selectionStep s (GardenEvent.clickNode i) = some i ∧
    selectionStep s GardenEvent.closePanel = none := by
  constructor <;> rfl

/-! ### Theorems: selection and layout (C4) -/

/-- C4 counterexample: for a concrete node (count 4, intensity 8) the
layout inputs of the selected node equal those of the same node
unselected — the collide radius fed to the simulation and the rendered
aura/core base radii are unchanged by selection, and no position is
pinned; only the pulse amplitude differs. This refutes the claimed
collision-radius inflation and visual-radius enlargement. -/
theorem selected_layout_counterexample :
    effectCollideRadius (some "2") 4 8 = effectCollideRadius none 4 8 ∧
    (breathParams 4 8 true).coreBaseRadius = (breathParams 4 8 false).coreBaseRadius ∧
    (breathParams 4 8 true).auraBaseRadius = (breathParams 4 8 false).auraBaseRadius ∧
    (breathParams 4 8 true).pulseRange ≠ (breathParams 4 8 false).pulseRange := by
  refine ⟨rfl, rfl, rfl, ?_⟩
  norm_num [breathParams]

/-- C4 amended: selection does not change the layout at all — the collide
radius handed to the simulation ignores `selectedMoodId`, the aura and
core base radii of a selected node equal the unselected ones, and the
tick position update takes no selection input; selection only increases
the breathing pulse amplitude by 7 (12 vs 5 added range) and raises the
aura opacities and stroke widths. -/
theorem selected_layout_spec (sel : Option String) (count intensity : ℚ) :
    effectCollideRadius sel count intensity = effectCollideRadius none count intensity ∧
    (breathParams count intensity true).coreBaseRadius
      = (breathParams count intensity false).coreBaseRadius ∧
    (breathParams count intensity true).auraBaseRadius
      = (breathParams count intensity false).auraBaseRadius ∧
    (breathParams count intensity true).pulseRange
      = (breathParams count intensity false).pulseRange + 7 ∧
    (breathParams count intensity false).auraOpacityHigh
      < (breathParams count intensity true).auraOpacityHigh ∧
    (breathParams count intensity false).strokeWidthHigh
      < (breathParams count intensity true).strokeWidthHigh := by
  refine ⟨rfl, rfl, rfl, ?_, ?_, ?_⟩
  · simp [breathParams]; ring
  · simp [breathParams]; norm_num
  · simp [breathParams]; norm_num

/-! ### Theorems: radii formulas (C5) -/

/-- C5 counterexample: at node count 4 and intensity 1 the visual radius
is below half the collision radius (the exact ratio is 119297/6600 to
4423/110 ≈ 0.45), so it is not approximately 0.6–0.7 times the collision
radius as claimed. -/
theorem visual_ratio_counterexample :
    getVisualRadius 4 1 < (1 / 2) * getCollisionRadius 4 1 := by
  norm_num [getVisualRadius, getCollisionRadius, basePadding, intensityScale]

/-- C5 amended: the collision radius is exactly
`intensity × intensityScale + basePadding`; the visual radius is
`0.65 × (intensity × intensityScale) + 0.4 × basePadding`, which is at
most `0.65 ×` the collision radius but can fall well below `0.6 ×` of it;
and both `intensityScale` and `basePadding` have the saturating form
`base + k/(1 + count · decay)` with positive constants and are
monotonically non-increasing in the node count. -/
theorem radii_formula_spec (count intensity : ℚ)
    (hc : 0 ≤ count) (hi : 0 ≤ intensity) :
    getCollisionRadius count intensity
      = intensity * intensityScale count + basePadding count ∧
    getVisualRadius count intensity
      = (65 / 100) * (intensity * intensityScale count)
        + (4 / 10) * basePadding count ∧
    getVisualRadius count intensity
      ≤ (65 / 100) * getCollisionRadius count intensity ∧
    basePadding count = 8 + 32 / (1 + count * (8 / 100)) ∧
    intensityScale count = 28 / 10 + (62 / 10) / (1 + count * (5 / 100)) ∧
    (∀ c, count ≤ c →
      basePadding c ≤ basePadding count ∧
      intensityScale c ≤ intensityScale count) := by
  have hden8 : (0 : ℚ) < 1 + count * (8 / 100) := by positivity
  have hden5 : (0 : ℚ) < 1 + count * (5 / 100) := by positivity
  refine ⟨rfl, by unfold getVisualRadius; ring, ?_, rfl, rfl, ?_⟩
  · have hpad : (0 : ℚ) ≤ basePadding count := by
      unfold basePadding; positivity
    unfold getVisualRadius getCollisionRadius
    nlinarith [hpad]
  · intro c hcc
    have hc0 : (0 : ℚ) ≤ c := le_trans hc hcc
    have hd8 : (0 : ℚ) < 1 + c * (8 / 100) := by positivity
    have hd5 : (0 : ℚ) < 1 + c * (5 / 100) := by positivity
    constructor
    · unfold basePadding
      gcongr <;> linarith
    · unfold intensityScale
      gcongr <;> linarith

/-- C5 witness: the amended statement evaluated at count 4, intensity 1,
with the count-monotonicity used from 4 to 20. -/
theorem radii_formula_spec_witness :
    getVisualRadius 4 1
      ≤ (65 / 100) * getCollisionRadius 4 1 ∧
    basePadding 20 ≤ basePadding 4 ∧
    intensityScale 20 ≤ intensityScale 4 :=
  ⟨(radii_formula_spec 4 1 (by norm_num) (by norm_num)).2.2.1,
   ((radii_formula_spec 4 1 (by norm_num) (by norm_num)).2.2.2.2.2 20 (by norm_num)).1,
   ((radii_formula_spec 4 1 (by norm_num) (by norm_num)).2.2.2.2.2 20 (by norm_num)).2⟩

/-! ### Theorems: pulse period (C7) -/

/-- C7: over the intensity range 1–10 the breathing half-period
`4000 − intensity × 250` is monotonically non-increasing in the
intensity: a higher-intensity mood never pulses more slowly. -/
theorem pulse_period_antitone (i j : ℚ) (h1 : 1 ≤ i) (hij : i ≤ j) (h10 : j ≤ 10) :
    baseDuration j ≤ baseDuration i := by
  unfold baseDuration
  linarith

/-- C7 witness: intensities 3 ≤ 7 within range, with the period bound
evaluated: 4000 − 7·250 = 2250 ≤ 3250 = 4000 − 3·250. -/
theorem pulse_period_antitone_witness :
    baseDuration 7 ≤ baseDuration 3 ∧ baseDuration 7 = 2250 ∧ baseDuration 3 = 3250 :=
  ⟨pulse_period_antitone 3 7 (by norm_num) (by norm_num) (by norm_num),
   by norm_num [baseDuration], by norm_num [baseDuration]⟩

/-! ## Mood registry (App.tsx) -/

/-- A comment on a mood entry (`types.ts: Comment`). -/
structure MoodComment where
  id : String
  author : String
  text : String
  timestamp : Int
deriving DecidableEq, Repr

/-- A mood entry (`types.ts: UserMood`); `echoCount` and `comments` are
optional fields there, hence `Option` here. -/
structure UserMood where
  id : String
  name : String
  emotion : String
  intensity : Int
  color : String
  message : String
  timestamp : Int
  echoCount : Option Int
  comments : Option (List MoodComment)
deriving DecidableEq, Repr

/-- JS `(x || 0)` on the optional `echoCount` field: `undefined` and `0`
are falsy, every other stored count is returned unchanged. -/
def jsCount (x : Option Int) : Int := x.getD 0

/-- `handleEcho(moodId)` from App.tsx:
`setMoods(prev => prev.map(m => m.id === moodId ? { ...m, echoCount: (m.echoCount || 0) + 1 } : m))`. -/
def handleEcho (moods : List UserMood) (moodId : String) : List UserMood :=
  moods.map fun m =>
    if m.id = moodId then { m with echoCount := some (jsCount m.echoCount + 1) } else m

/-- `handleComment(moodId, author, text)` from App.tsx: builds a comment
with a fresh `Date.now()` id/timestamp (`now` here) and appends it to the
matching entry's comment list (`[...(m.comments || []), newComment]`). -/
def handleComment (moods : List UserMood) (moodId author text : String)
    (now : Int) : List UserMood :=
  let newComment : MoodComment :=
    { id := toString now, author := author, text := text, timestamp := now }
  moods.map fun m =>
    if m.id = moodId then { m with comments := some (m.comments.getD [] ++ [newComment]) }
    else m

/-! ### Theorems: echo counting (C8) -/

/-- C8: after `handleEcho` on an entry whose id matches, that entry's
echo count is its previous (falsy-defaulted) value plus one and every
other entry is unchanged; the count never decreases and stays
non-negative; `handleComment` never changes any echo count; and
`handleEcho` with an id absent from the registry leaves the whole list
unchanged. -/
theorem recordEcho_spec (moods : List UserMood) (moodId : String)
    (i : Nat) (m : UserMood) (hm : moods[i]? = some m) :
    (m.id = moodId →
      (handleEcho moods moodId)[i]? =
        some { m with echoCount := some (jsCount m.echoCount + 1) }) ∧
    (m.id ≠ moodId → (handleEcho moods moodId)[i]? = some m) ∧
    (∀ m', (handleEcho moods moodId)[i]? = some m' →
      jsCount m.echoCount ≤ jsCount m'.echoCount ∧
      (0 ≤ jsCount m.echoCount → 0 ≤ jsCount m'.echoCount)) ∧
    (∀ author text now m',
      (handleComment moods moodId author text now)[i]? = some m' →
      m'.echoCount = m.echoCount) ∧
    ((∀ x ∈ moods, x.id ≠ moodId) → handleEcho moods moodId = moods) := by
  refine ⟨?_, ?_, ?_, ?_, ?_⟩
  · intro hid
    simp [handleEcho, List.getElem?_map, hm, hid]
  · intro hid
    simp [handleEcho, List.getElem?_map, hm, hid]
  · intro m' hm'
    simp [handleEcho, List.getElem?_map, hm] at hm'
    by_cases hid : m.id = moodId
    · rw [if_pos hid] at hm'
      subst hm'
      simp only [jsCount, Option.getD_some]
      exact ⟨by linarith, fun h => by linarith⟩
    · rw [if_neg hid] at hm'
      subst hm'
      exact ⟨le_refl _, fun h => h⟩
  · intro author text now m' hm'
    simp [handleComment, List.getElem?_map, hm] at hm'
    by_cases hid : m.id = moodId
    · rw [if_pos hid] at hm'
      subst hm'
      rfl
    · rw [if_neg hid] at hm'
      subst hm'
      rfl
  · intro habs
    unfold handleEcho
    calc moods.map (fun m =>
          if m.id = moodId then { m with echoCount := some (jsCount m.echoCount + 1) } else m)
        = moods.map id := by
          apply List.map_congr_left
          intro a ha
          simp [habs a ha]
      _ = moods := List.map_id moods

/-- The first seed entry of `INITIAL_MOODS` in App.tsx (timestamp taken
as 0), used as a concrete input for the `recordEcho_spec` witness. -/
def seedMood : UserMood :=
  { id := "1"
    name := "子涵"
    emotion := "CALM"
    intensity := 4
    color := "#60a5fa"
    message := "静静看雨，心很平。"
    timestamp := 0
    echoCount := some 2
    comments := some [] }

/-- C8 witness: the theorem applied to the concrete one-entry registry
`[seedMood]` (id "1", echo count 2): echoing id "1" yields count 3, a
comment leaves the count at 2, and echoing the absent id "9" changes
nothing. -/
theorem recordEcho_spec_witness :
    (handleEcho [seedMood] "1")[0]? = some { seedMood with echoCount := some 3 } ∧
    (∀ m', (handleComment [seedMood] "1" "阿明" "加油" 5)[0]? = some m' →
      m'.echoCount = some 2) ∧
    handleEcho [seedMood] "9" = [seedMood] := by
  refine ⟨?_, ?_, ?_⟩
  · exact (recordEcho_spec [seedMood] "1" 0 seedMood rfl).1 rfl
  · intro m' hm'
    exact (recordEcho_spec [seedMood] "1" 0 seedMood rfl).2.2.2.1 "阿明" "加油" 5 m' hm'
  · exact (recordEcho_spec [seedMood] "9" 0 seedMood rfl).2.2.2.2 (by decide)

/-! ## Collective caption sanitizer (App.tsx, `sanitizeMessage`)

`sanitizeMessage` chains four JS string operations:
1. `.replace(/\*\*|\*|_/g, '')` — delete every `*` and `_`;
2. `.replace(/[\(\（].*?[\)\）]/g, '')` — delete every lazily matched
   open-paren … close-paren span; JS `.` does not match a line
   terminator, so a span containing one is not matched;
3. `.replace(/["'“ ”‘ ’]/g, '')` — delete the quote characters *and the
   ASCII space*, which appears (twice) verbatim inside the class;
4. `.trim()`.
-/

/-- Characters deleted by the first replace. -/
def isEmphasisB (c : Char) : Bool := c == '*' || c == '_'

/-- The open-paren class `[\(\（]` of the second replace. -/
def isOpenParenB (c : Char) : Bool := c == '(' || c == '（'

/-- The close-paren class `[\)\）]` of the second replace. -/
def isCloseParenB (c : Char) : Bool := c == ')' || c == '）'

/-- JS regex line terminators: `.` never matches these. -/
def isLineTermB (c : Char) : Bool :=
  c == '\n' || c == '\r' || c == ' ' || c == ' '

/-- The third replace's class `["'“ ”‘ ’]`: double and curly quotes plus
the literal ASCII space present in the source between `“` and `”` and
between `‘` and `’`. -/
def isQuoteSpaceB (c : Char) : Bool :=
  c == '"' || c == '\'' || c == '“' || c == ' ' || c == '”' || c == '‘' || c == '’'

/-- Whitespace removed from the ends by JS `String.prototype.trim`. -/
def jsWhitespaceB (c : Char) : Bool :=
  c == '\t' || c == '\n' || c == '\u000B' || c == '\u000C' || c == '\r' ||
  c == ' ' || c == ' ' || c == ' ' ||
  (decide (0x2000 ≤ c.toNat) && decide (c.toNat ≤ 0x200A)) ||
  c == ' ' || c == ' ' || c == ' ' || c == ' ' ||
  c == '　' || c == '﻿'

/-- The lazy tail `.*?[\)\）]` attempted after an open paren: returns the
remainder after the first close paren, or `none` if a line terminator or
the end of input is reached first (then the regex fails at this start). -/
def findClose : List Char → Option (List Char)
  | [] => none
  | c :: rest =>
    if isCloseParenB c then some rest
    else if isLineTermB c then none
    else findClose rest

/-- Fuel-indexed scan of the second (global, lazy) replace: at an open
paren with a same-line close paren ahead, drop the whole span and resume
after it; otherwise keep the character and advance one position. The
fuel only makes the recursion structural; `replParen` supplies enough. -/
def replParenFuel : Nat → List Char → List Char
  | 0, l => l
  | _ + 1, [] => []
  | fuel + 1, c :: rest =>
    if isOpenParenB c then
      match findClose rest with
      | some rest2 => replParenFuel fuel rest2
      | none => c :: replParenFuel fuel rest
    else c :: replParenFuel fuel rest

/-- The second replace: `.replace(/[\(\（].*?[\)\）]/g, '')`. -/
def replParen (l : List Char) : List Char := replParenFuel l.length l

/-- JS `trim`: drop `jsWhitespaceB` characters from both ends. -/
def jsTrim (l : List Char) : List Char :=
  ((l.dropWhile jsWhitespaceB).reverse.dropWhile jsWhitespaceB).reverse

/-- `sanitizeMessage` from App.tsx, as the four-stage pipeline above. -/
def sanitizeMessage (s : String) : String :=
  String.mk (jsTrim ((replParen (s.data.filter fun c => !isEmphasisB c)).filter
    fun c => !isQuoteSpaceB c))

/-- Scanner state transition: after reading `c`, is there an open paren
with no line terminator since? -/
def nextPending (pending : Bool) (c : Char) : Bool :=
  if isLineTermB c then false else pending || isOpenParenB c

/-- `okScan pending l = true` iff `l` contains no close paren preceded
(at any distance, with no line terminator in between) by an open paren —
i.e. no single-line parenthetical span survives. `pending` records
whether such an open paren was already seen. -/
def okScan : Bool → List Char → Bool
  | _, [] => true
  | pending, c :: rest =>
    if pending && isCloseParenB c then false else okScan (nextPending pending c) rest

/-- Does the list contain an open paren followed (anywhere) later by a
close paren — i.e. any parenthetical span at all? -/
def hasParenPair : Bool → List Char → Bool
  | _, [] => false
  | seenOpen, c :: rest =>
    if seenOpen && isCloseParenB c then true
    else hasParenPair (seenOpen || isOpenParenB c) rest

/-- Is the rest of the input, up to the first line terminator, free of
close parens? (Exactly when `findClose` fails.) -/
def noCloseBeforeNL : List Char → Bool
  | [] => true
  | c :: rest =>
    if isCloseParenB c then false
    else if isLineTermB c then true
    else noCloseBeforeNL rest

/-- No sanitizer artifact characters at all. -/
def noArtifactsB (l : List Char) : Bool :=
  l.all fun c => !(isEmphasisB c || isQuoteSpaceB c)

/-- Both ends free of JS whitespace. -/
def trimmedB (l : List Char) : Bool :=
  (match l.head? with
   | some c => !jsWhitespaceB c
   | none => true) &&
  (match l.getLast? with
   | some c => !jsWhitespaceB c
   | none => true)

theorem lineterm_not_quoteSpace (c : Char) (h : isLineTermB c = true) :
    isQuoteSpaceB c = false := by
  simp only [isLineTermB, Bool.or_eq_true, beq_iff_eq] at h
  rcases h with ((h | h) | h) | h <;> subst h <;> rfl

theorem lineterm_not_open (c : Char) (h : isLineTermB c = true) :
    isOpenParenB c = false := by
  simp only [isLineTermB, Bool.or_eq_true, beq_iff_eq] at h
  rcases h with ((h | h) | h) | h <;> subst h <;> rfl

theorem open_not_lineterm (c : Char) (h : isOpenParenB c = true) :
    isLineTermB c = false := by
  simp only [isOpenParenB, Bool.or_eq_true, beq_iff_eq] at h
  rcases h with h | h <;> subst h <;> rfl

theorem open_not_close (c : Char) (h : isOpenParenB c = true) :
    isCloseParenB c = false := by
  simp only [isOpenParenB, Bool.or_eq_true, beq_iff_eq] at h
  rcases h with h | h <;> subst h <;> rfl

theorem findClose_length : ∀ (l r : List Char), findClose l = some r → r.length < l.length := by
  intro l
  induction l with
  | nil => intro r h; simp [findClose] at h
  | cons c rest ih =>
    intro r h
    unfold findClose at h
    split at h
    · cases h
      simp
    · split at h
      · cases h
      · have := ih r h
        simp only [List.length_cons]
        omega

theorem findClose_mem : ∀ (l r : List Char), findClose l = some r → ∀ x ∈ r, x ∈ l := by
  intro l
  induction l with
  | nil => intro r h; simp [findClose] at h
  | cons c rest ih =>
    intro r h x hx
    unfold findClose at h
    split at h
    · cases h
      exact List.mem_cons_of_mem c hx
    · split at h
      · cases h
      · exact List.mem_cons_of_mem c (ih r h x hx)

theorem findClose_none_noCB : ∀ l : List Char, findClose l = none → noCloseBeforeNL l = true := by
  intro l
  induction l with
  | nil => intro h; rfl
  | cons c rest ih =>
    intro h
    unfold findClose at h
    unfold noCloseBeforeNL
    by_cases h1 : isCloseParenB c = true
    · rw [if_pos h1] at h
      cases h
    · rw [if_neg h1] at h
      rw [if_neg h1]
      by_cases h2 : isLineTermB c = true
      · rw [if_pos h2]
      · rw [if_neg h2] at h
        rw [if_neg h2]
        exact ih h

theorem noCB_findClose_none : ∀ l : List Char, noCloseBeforeNL l = true → findClose l = none := by
  intro l
  induction l with
  | nil => intro h; rfl
  | cons c rest ih =>
    intro h
    unfold noCloseBeforeNL at h
    unfold findClose
    by_cases h1 : isCloseParenB c = true
    · rw [if_pos h1] at h
      cases h
    · rw [if_neg h1] at h
      rw [if_neg h1]
      by_cases h2 : isLineTermB c = true
      · rw [if_pos h2]
      · rw [if_neg h2] at h
        rw [if_neg h2]
        exact ih h

theorem replParenFuel_cons_open_some (n : Nat) (c : Char) (rest rest2 : List Char)
    (ho : isOpenParenB c = true) (hf : findClose rest = some rest2) :
    replParenFuel (n + 1) (c :: rest) = replParenFuel n rest2 := by
  simp [replParenFuel, ho, hf]

theorem replParenFuel_cons_open_none (n : Nat) (c : Char) (rest : List Char)
    (ho : isOpenParenB c = true) (hf : findClose rest = none) :
    replParenFuel (n + 1) (c :: rest) = c :: replParenFuel n rest := by
  simp [replParenFuel, ho, hf]

theorem replParenFuel_cons_notopen (n : Nat) (c : Char) (rest : List Char)
    (ho : isOpenParenB c = false) :
    replParenFuel (n + 1) (c :: rest) = c :: replParenFuel n rest := by
  simp [replParenFuel, ho]

theorem mem_replParenFuel : ∀ (fuel : Nat) (l : List Char) (x : Char),
    x ∈ replParenFuel fuel l → x ∈ l := by
  intro fuel
  induction fuel with
  | zero => intro l x h; simpa [replParenFuel] using h
  | succ n ih =>
    intro l x h
    cases l with
    | nil => simpa [replParenFuel] using h
    | cons c rest =>
      by_cases ho : isOpenParenB c = true
      · cases hf : findClose rest with
        | some rest2 =>
          rw [replParenFuel_cons_open_some n c rest rest2 ho hf] at h
          exact List.mem_cons_of_mem c (findClose_mem rest rest2 hf x (ih rest2 x h))
        | none =>
          rw [replParenFuel_cons_open_none n c rest ho hf] at h
          rcases List.mem_cons.mp h with h | h
          · exact h ▸ List.mem_cons_self c rest
          · exact List.mem_cons_of_mem c (ih rest x h)
      · rw [replParenFuel_cons_notopen n c rest (Bool.not_eq_true _ ▸ ho)] at h
        rcases List.mem_cons.mp h with h | h
        · exact h ▸ List.mem_cons_self c rest
        · exact List.mem_cons_of_mem c (ih rest x h)

theorem mem_replParen (l : List Char) (x : Char) (h : x ∈ replParen l) : x ∈ l :=
  mem_replParenFuel l.length l x h

theorem okScan_mono : ∀ l : List Char, okScan true l = true → okScan false l = true := by
  intro l
  induction l with
  | nil => intro h; rfl
  | cons c rest ih =>
    intro h
    simp only [okScan] at h ⊢
    cases hc : isCloseParenB c with
    | true => simp [hc] at h
    | false =>
      simp only [hc, Bool.and_false, Bool.and_true, if_neg] at h ⊢
      simp only [Bool.false_eq_true, if_false] at h ⊢
      cases hlt : isLineTermB c with
      | true => simpa [nextPending, hlt] using h
      | false =>
        simp only [nextPending, hlt, Bool.false_eq_true, if_false, Bool.true_or] at h
        simp only [nextPending, hlt, Bool.false_eq_true, if_false, Bool.false_or]
        cases ho : isOpenParenB c with
        | true => exact h
        | false => exact ih h

theorem okScan_mono_false (l : List Char) (b : Bool) (h : okScan b l = true) :
    okScan false l = true := by
  cases b
  · exact h
  · exact okScan_mono l h

theorem okScan_append_left : ∀ (a t : List Char) (b : Bool),
    okScan b (a ++ t) = true → okScan b a = true := by
  intro a
  induction a with
  | nil => intro t b h; rfl
  | cons c rest ih =>
    intro t b h
    simp only [List.cons_append, okScan] at h ⊢
    cases hcond : (b && isCloseParenB c) with
    | true => simp [hcond] at h
    | false =>
      simp only [hcond, Bool.false_eq_true, if_false] at h ⊢
      exact ih t _ h

theorem okScan_suffix : ∀ (pre t : List Char) (b : Bool),
    okScan b (pre ++ t) = true → okScan false t = true := by
  intro pre
  induction pre with
  | nil => intro t b h; exact okScan_mono_false t b h
  | cons c rest ih =>
    intro t b h
    simp only [List.cons_append, okScan] at h
    cases hcond : (b && isCloseParenB c) with
    | true => simp [hcond] at h
    | false =>
      simp only [hcond, Bool.false_eq_true, if_false] at h
      exact ih t _ h

theorem okScan_filter (p : Char → Bool) (hp : ∀ c, isLineTermB c = true → p c = true) :
    ∀ (l : List Char) (pending : Bool),
    okScan pending l = true → okScan pending (l.filter p) = true := by
  intro l
  induction l with
  | nil => intro pending h; exact h
  | cons c rest ih =>
    intro pending h
    simp only [okScan] at h
    cases hcond : (pending && isCloseParenB c) with
    | true => simp [hcond] at h
    | false =>
      simp only [hcond, Bool.false_eq_true, if_false] at h
      cases hpc : p c with
      | true =>
        simp only [List.filter_cons, hpc, if_true, okScan, hcond, Bool.false_eq_true,
          if_false]
        exact ih _ h
      | false =>
        simp only [List.filter_cons, hpc, Bool.false_eq_true, if_false]
        have hlt : isLineTermB c = false := by
          cases hlt2 : isLineTermB c with
          | true => rw [hp c hlt2] at hpc; cases hpc
          | false => rfl
        simp only [nextPending, hlt, Bool.false_eq_true, if_false] at h
        have hpend : okScan pending rest = true := by
          cases pending
          · simp only [Bool.false_or] at h
            exact okScan_mono_false rest _ h
          · simpa using h
        exact ih pending hpend

theorem replParenFuel_ok : ∀ (fuel : Nat) (l : List Char), l.length ≤ fuel →
    okScan false (replParenFuel fuel l) = true ∧
    (noCloseBeforeNL l = true → okScan true (replParenFuel fuel l) = true) := by
  intro fuel
  induction fuel with
  | zero =>
    intro l hl
    have hnil : l = [] := List.eq_nil_of_length_eq_zero (Nat.le_zero.mp hl)
    subst hnil
    exact ⟨rfl, fun _ => rfl⟩
  | succ n ih =>
    intro l hl
    cases l with
    | nil => exact ⟨rfl, fun _ => rfl⟩
    | cons c rest =>
      have hrest : rest.length ≤ n := by
        simp only [List.length_cons] at hl
        omega
      by_cases ho : isOpenParenB c = true
      · cases hf : findClose rest with
        | some rest2 =>
          have hlen := findClose_length rest rest2 hf
          have h2 : rest2.length ≤ n := by omega
          rw [replParenFuel_cons_open_some n c rest rest2 ho hf]
          refine ⟨(ih rest2 h2).1, ?_⟩
          intro hncb
          unfold noCloseBeforeNL at hncb
          rw [if_neg (by simp [open_not_close c ho])] at hncb
          rw [if_neg (by simp [open_not_lineterm c ho])] at hncb
          have := noCB_findClose_none rest hncb
          rw [this] at hf
          cases hf
        | none =>
          rw [replParenFuel_cons_open_none n c rest ho hf]
          have hncbrest := findClose_none_noCB rest hf
          constructor
          · simp only [okScan, Bool.false_and, Bool.false_eq_true, if_false,
              nextPending, open_not_lineterm c ho, Bool.false_or, ho]
            exact (ih rest hrest).2 hncbrest
          · intro hncb
            simp only [okScan, open_not_close c ho, Bool.and_false, Bool.false_eq_true,
              if_false, nextPending, open_not_lineterm c ho, Bool.true_or]
            exact (ih rest hrest).2 hncbrest
      · have ho2 : isOpenParenB c = false := by
          cases h3 : isOpenParenB c with
          | true => exact absurd h3 ho
          | false => rfl
        rw [replParenFuel_cons_notopen n c rest ho2]
        constructor
        · simp only [okScan, Bool.false_and, Bool.false_eq_true, if_false, nextPending,
            ho2, Bool.false_or]
          cases hlt : isLineTermB c with
          | true => simp only [if_true]; exact (ih rest hrest).1
          | false => simp only [Bool.false_eq_true, if_false]; exact (ih rest hrest).1
        · intro hncb
          unfold noCloseBeforeNL at hncb
          by_cases hcl : isCloseParenB c = true
          · rw [if_pos hcl] at hncb
            cases hncb
          · have hcl2 : isCloseParenB c = false := by
              cases h3 : isCloseParenB c with
              | true => exact absurd h3 hcl
              | false => rfl
            rw [if_neg hcl] at hncb
            simp only [okScan, hcl2, Bool.and_false, Bool.false_eq_true, if_false,
              nextPending, ho2, Bool.true_or]
            cases hlt : isLineTermB c with
            | true =>
              exact (ih rest hrest).1
            | false =>
              rw [hlt] at hncb
              simp only [Bool.false_eq_true, if_false] at hncb
              exact (ih rest hrest).2 hncb

theorem replParen_okScan (l : List Char) : okScan false (replParen l) = true :=
  (replParenFuel_ok l.length l le_rfl).1

theorem dropWhile_eq_append (p : Char → Bool) :
    ∀ l : List Char, ∃ pre, l = pre ++ l.dropWhile p := by
  intro l
  induction l with
  | nil => exact ⟨[], rfl⟩
  | cons c rest ih =>
    by_cases hc : p c = true
    · obtain ⟨pre, hpre⟩ := ih
      refine ⟨c :: pre, ?_⟩
      simp only [List.dropWhile_cons, hc, if_true, List.cons_append]
      exact congrArg (c :: ·) hpre
    · exact ⟨[], by simp [List.dropWhile_cons, hc]⟩

theorem mem_dropWhile (p : Char → Bool) (l : List Char) (x : Char)
    (h : x ∈ l.dropWhile p) : x ∈ l := by
  obtain ⟨pre, hpre⟩ := dropWhile_eq_append p l
  rw [hpre]
  exact List.mem_append_right pre h

theorem head_dropWhile_not (p : Char → Bool) :
    ∀ (l : List Char) (c : Char), (l.dropWhile p).head? = some c → p c = false := by
  intro l
  induction l with
  | nil => intro c h; simp [List.dropWhile] at h
  | cons a rest ih =>
    intro c h
    rw [List.dropWhile_cons] at h
    by_cases ha : p a = true
    · rw [if_pos ha] at h
      exact ih c h
    · rw [if_neg ha] at h
      simp only [List.head?_cons, Option.some_inj] at h
      subst h
      cases h3 : p a with
      | true => exact absurd h3 ha
      | false => rfl

theorem mem_jsTrim (l : List Char) (x : Char) (h : x ∈ jsTrim l) : x ∈ l := by
  unfold jsTrim at h
  rw [List.mem_reverse] at h
  have h1 := mem_dropWhile jsWhitespaceB _ x h
  rw [List.mem_reverse] at h1
  exact mem_dropWhile jsWhitespaceB l x h1

theorem jsTrim_decomp (l : List Char) :
    ∃ pre, l.dropWhile jsWhitespaceB = jsTrim l ++ pre := by
  obtain ⟨pre2, hpre2⟩ :=
    dropWhile_eq_append jsWhitespaceB (l.dropWhile jsWhitespaceB).reverse
  refine ⟨pre2.reverse, ?_⟩
  unfold jsTrim
  calc l.dropWhile jsWhitespaceB
      = (l.dropWhile jsWhitespaceB).reverse.reverse := (List.reverse_reverse _).symm
    _ = (pre2 ++ (l.dropWhile jsWhitespaceB).reverse.dropWhile jsWhitespaceB).reverse := by
        rw [← hpre2]
    _ = ((l.dropWhile jsWhitespaceB).reverse.dropWhile jsWhitespaceB).reverse
          ++ pre2.reverse := List.reverse_append _ _

theorem jsTrim_okScan (l : List Char) (h : okScan false l = true) :
    okScan false (jsTrim l) = true := by
  obtain ⟨pre, hpre⟩ := dropWhile_eq_append jsWhitespaceB l
  have hv : okScan false (l.dropWhile jsWhitespaceB) = true := by
    apply okScan_suffix pre _ false
    rw [← hpre]
    exact h
  obtain ⟨post, hpost⟩ := jsTrim_decomp l
  apply okScan_append_left (jsTrim l) post false
  rw [← hpost]
  exact hv

theorem jsTrim_head (l : List Char) (c : Char)
    (h : (jsTrim l).head? = some c) : jsWhitespaceB c = false := by
  obtain ⟨post, hpost⟩ := jsTrim_decomp l
  have hv : (l.dropWhile jsWhitespaceB).head? = some c := by
    rw [hpost]
    cases hs : jsTrim l with
    | nil => rw [hs] at h; cases h
    | cons a t =>
      rw [hs] at h
      simp only [List.head?_cons, Option.some_inj] at h
      subst h
      rfl
  exact head_dropWhile_not jsWhitespaceB l c hv

theorem jsTrim_last (l : List Char) (c : Char)
    (h : (jsTrim l).getLast? = some c) : jsWhitespaceB c = false := by
  unfold jsTrim at h
  rw [List.getLast?_reverse] at h
  exact head_dropWhile_not jsWhitespaceB _ c h

theorem jsTrim_trimmed (l : List Char) : trimmedB (jsTrim l) = true := by
  unfold trimmedB
  rw [Bool.and_eq_true]
  constructor
  · cases h1 : (jsTrim l).head? with
    | none => rfl
    | some c => simp [jsTrim_head l c h1]
  · cases h2 : (jsTrim l).getLast? with
    | none => rfl
    | some c => simp [jsTrim_last l c h2]

/-! ### Theorems: sanitizer (C9, C10) -/

/-- C9 counterexample: a parenthetical whose interior spans a line
terminator is not matched by the second replace (JS `.` does not match
`\n`), so `（注：\na）` passes through the sanitizer verbatim and the
output still contains an open paren followed by a close paren — the
claimed removal of all parenthetical content fails at this input. -/
theorem sanitizer_paren_counterexample :
    sanitizeMessage "（注：\na）" = "（注：\na）" ∧
    hasParenPair false (sanitizeMessage "（注：\na）").data = true := by
  constructor
  · rfl
  · rfl

/-- C9 amended: for every input, the sanitized output contains no
emphasis-markup character (`*`, `_`) and no character of the
quote-and-space class, contains no single-line parenthetical span (no
close paren preceded by an open paren without a line terminator in
between — a parenthetical containing a line terminator may survive), and
carries no JS whitespace at either end. -/
theorem sanitizer_spec (s : String) :
    noArtifactsB (sanitizeMessage s).data = true ∧
    okScan false (sanitizeMessage s).data = true ∧
    trimmedB (sanitizeMessage s).data = true := by
  have hdata : (sanitizeMessage s).data
      = jsTrim ((replParen (s.data.filter fun c => !isEmphasisB c)).filter
          fun c => !isQuoteSpaceB c) := rfl
  refine ⟨?_, ?_, ?_⟩
  · rw [hdata]
    unfold noArtifactsB
    rw [List.all_eq_true]
    intro c hc
    have hc3 := mem_jsTrim _ c hc
    have hq := List.of_mem_filter hc3
    have hcr : c ∈ replParen (s.data.filter fun c => !isEmphasisB c) :=
      List.mem_of_mem_filter hc3
    have hc1 := mem_replParen _ c hcr
    have he := List.of_mem_filter hc1
    simp only [Bool.not_eq_true'] at hq he
    simp [he, hq]
  · rw [hdata]
    apply jsTrim_okScan
    refine okScan_filter _ ?_ _ false (replParen_okScan _)
    intro c hcl
    rw [lineterm_not_quoteSpace c hcl]
    rfl
  · rw [hdata]
    exact jsTrim_trimmed _

/-- C10: the third replace's character class contains the literal ASCII
space, so the sanitized caption contains no ASCII space at all — every
space of the input is deleted, not only quotes, emphasis markup and
parenthetical content. -/
theorem sanitizer_removes_spaces (s : String) :
    ((sanitizeMessage s).data.all fun c => !(c == ' ')) = true := by
  rw [List.all_eq_true]
  intro c hc
  have hc3 : c ∈ jsTrim ((replParen (s.data.filter fun c => !isEmphasisB c)).filter
      fun c => !isQuoteSpaceB c) := hc
  have hq := List.of_mem_filter (mem_jsTrim _ c hc3)
  simp only [Bool.not_eq_true'] at hq
  cases hce : (c == ' ') with
  | false => rfl
  | true =>
    rw [beq_iff_eq] at hce
    subst hce
    cases hq

/-- C10 illustration on a concrete input: interior spaces are deleted,
not merely trimmed. -/
theorem sanitizer_removes_spaces_witness :
    ((sanitizeMessage "如 同 细 雨").data.all fun c => !(c == ' ')) = true :=
  sanitizer_removes_spaces "如 同 细 雨"

/-! ## Local history store (components/EmpathyGuide.tsx)

The two `useState` initializers read a key from local storage and feed it
to `JSON.parse` with no `try`/`catch`:
`const saved = localStorage.getItem('personal_mood_history_v2');`
`return saved ? JSON.parse(saved) : [];`
`JSON.parse` is an external collaborator; it is passed in as an
`Except`-valued function (it throws a `SyntaxError` on malformed input).
An absent key is `none`; the empty string is falsy in JS and also takes
the default branch. -/

/-- `JSON.parse` throwing on malformed input. -/
inductive ParseError where
  | syntaxError
deriving DecidableEq, Repr

/-- An entry of the personal mood history (EmpathyGuide `PersonalMoodEntry`). -/
structure PersonalMoodEntry where
  emotion : String
  message : String
  timestamp : Int
deriving DecidableEq, Repr

/-- A chat message (EmpathyGuide `Message`): role (true = user,
false = model), text, optional timestamp. -/
structure ChatMessage where
  role : Bool
  text : String
  timestamp : Option Int
deriving DecidableEq, Repr

/-- The default chat history used when nothing is persisted (the single
greeting message, timestamped `Date.now()`). -/
def defaultChatHistory (now : Int) : List ChatMessage :=
  [{ role := false
     text := "你好，我是你的心灵伙伴。在这里，你可以放下所有的防备，与我分享任何话题。你现在想聊聊什么？"
     timestamp := some now }]

/-- The `personalMoodHistory` initializer: `saved ? JSON.parse(saved) : []`
— note the parse result is returned unguarded, so a parse error
propagates to the caller. -/
def loadPersonalMoodHistory (saved : Option String)
    (parse : String → Except ParseError (List PersonalMoodEntry)) :
    Except ParseError (List PersonalMoodEntry) :=
  match saved with
  | none => Except.ok []
  | some s => if s = "" then Except.ok [] else parse s

/-- The `chatHistory` initializer: `saved ? JSON.parse(saved) : [greeting]`
— likewise unguarded. -/
def loadChatHistory (saved : Option String)
    (parse : String → Except ParseError (List ChatMessage)) (now : Int) :
    Except ParseError (List ChatMessage) :=
  match saved with
  | none => Except.ok (defaultChatHistory now)
  | some s => if s = "" then Except.ok (defaultChatHistory now) else parse s

/-! ### Theorems: history loading (C2) -/

/-- C2: an absent persisted value does load as the empty/default value,
but a malformed persisted value makes both initializers propagate the
parse exception to the caller instead of substituting the default — the
claimed malformed-tolerance does not hold in the code. -/
theorem history_load_spec (parseP : String → Except ParseError (List PersonalMoodEntry))
    (parseC : String → Except ParseError (List ChatMessage))
    (s : String) (e1 e2 : ParseError) (now : Int)
    (hs : ¬s = "") (hp : parseP s = Except.error e1) (hc : parseC s = Except.error e2) :
    loadPersonalMoodHistory (some s) parseP = Except.error e1 ∧
    loadChatHistory (some s) parseC now = Except.error e2 ∧
    loadPersonalMoodHistory none parseP = Except.ok [] ∧
    loadChatHistory none parseC now = Except.ok (defaultChatHistory now) := by
  refine ⟨?_, ?_, rfl, rfl⟩
  · simp [loadPersonalMoodHistory, hs, hp]
  · simp [loadChatHistory, hs, hc]

/-- C2 witness: with the stored string `{` (malformed JSON, on which
`JSON.parse` throws a `SyntaxError`), both loads evaluate to the
propagated error. -/
theorem history_load_spec_witness :
    loadPersonalMoodHistory (some "\x7b") (fun _ => Except.error ParseError.syntaxError)
      = Except.error ParseError.syntaxError ∧
    loadChatHistory (some "\x7b") (fun _ => Except.error ParseError.syntaxError) 0
      = Except.error ParseError.syntaxError := by
  have h := history_load_spec (fun _ => Except.error ParseError.syntaxError)
    (fun _ => Except.error ParseError.syntaxError) "\x7b" ParseError.syntaxError
    ParseError.syntaxError 0 (by decide) rfl rfl
  exact ⟨h.1, h.2.1⟩
